import Mathlib

/-!
Verification of the `UE4BuildInterrogator` core of ue4cli
(`src/ue4cli/UE4BuildInterrogator.py`).

The Python class is shallowly embedded below.  Pure string/path helpers
(`str.replace`, `os.path.join`, `os.path.isabs`, `os.path.dirname` under
POSIX semantics) become Lean functions on `String` (represented through
their `List Char` data).  The effectful parts (the UnrealBuildTool
invocation, the JSON export parse, the temp-directory lifecycle and the
per-engine-version cache) become an explicit environment `Env` threaded
through the functions, with an outcome record tracking the observable
effects (cache contents, warnings written to stderr, tool invocations,
temp-directory creation/removal).

The collaborator class `ThirdPartyLibraryDetails` is not part of the
source under verification; it is modelled from the spec (see its doc
comment).
-/

namespace UE4Cli

/-- Embeds Python `p.replace('\\', '/')`: every backslash becomes a forward
slash (`UE4BuildInterrogator.py` lines 50 and 98). -/
def slashify (p : String) : String :=
  ⟨p.data.map fun c => if c = '\\' then '/' else c⟩

/-- Embeds Python `'/' in p` (substring test with a one-character needle is
character membership). -/
def containsSlash (p : String) : Bool :=
  p.data.contains '/'

/-- Embeds `os.path.isabs` for POSIX paths: the path starts with `/`. -/
def isabs (p : String) : Bool :=
  match p.data with
  | '/' :: _ => true
  | _ => false

/-- True when the string ends with `/` (used by the POSIX `os.path.join`
semantics). -/
def endsSlash (p : String) : Bool :=
  match p.data.reverse with
  | '/' :: _ => true
  | _ => false

/-- Embeds Python `p.startswith('../')`: the first three characters are
`../`. -/
def startsTraversal (p : String) : Bool :=
  p.data.take 3 == ['.', '.', '/']

/-- Embeds Python `p.replace('../', '')` on the character list: every
non-overlapping occurrence of `../`, scanning left to right, is removed. -/
def removeDotDotSlash : List Char → List Char
  | '.' :: '.' :: '/' :: rest => removeDotDotSlash rest
  | c :: rest => c :: removeDotDotSlash rest
  | [] => []

/-- Embeds line 99: `p.replace('../', '') if p.startswith('../') else p`. -/
def stripLeadingTraversal (p : String) : String :=
  if startsTraversal p then ⟨removeDotDotSlash p.data⟩ else p

/-- Embeds the two-argument POSIX `os.path.join`. -/
def pjoin (a b : String) : String :=
  if isabs b then b
  else if a.data = [] ∨ endsSlash a then a ++ b
  else a ++ "/" ++ b

/-- Embeds the POSIX `os.path.dirname`: the part before the last `/`, with
trailing slashes stripped unless the result consists only of slashes. -/
def dirname (p : String) : String :=
  let head := (p.data.reverse.dropWhile fun c => c ≠ '/').reverse
  if head ≠ [] ∧ head.any (fun c => c ≠ '/') then
    ⟨(head.reverse.dropWhile fun c => c = '/').reverse⟩
  else ⟨head⟩

/-- Modelled from the amended claim wording for C2: remove every
non-overlapping occurrence of the parent-traversal marker `../`, scanning
left to right.  Written independently of `removeDotDotSlash` (explicit
`take`/`drop` with well-founded recursion) and proved equal to it. -/
def specRemove : List Char → List Char
  | [] => []
  | c :: rest =>
    if (c :: rest).take 3 = ['.', '.', '/'] then specRemove ((c :: rest).drop 3)
    else c :: specRemove rest
termination_by cs => cs.length
decreasing_by
  all_goals simp [List.length_drop]
  omega

/-- The fixed engine-source subdirectory, `self.engineSourceDir =
'Engine/Source/'` from `__init__` (line 11). -/
def engineSourceDir : String := "Engine/Source/"

/-- The interrogator's own state: just the engine root directory.  The
engine-version hash and the UBT runner function are modelled inside `Env`
below (the cache is keyed by the one version the interrogator holds, and
the runner is opaque). -/
structure UE4BuildInterrogator where
  engineRoot : String

/-- Embeds `_absolutePaths` (lines 94-100): canonicalize backslashes, strip
`../` occurrences when the path starts with `../`, then rebase every
non-absolute path containing a separator onto
`os.path.join(engineRoot, engineSourceDir, p)`. -/
def absolutePaths (I : UE4BuildInterrogator) (paths : List String) : List String :=
  let slashes := paths.map slashify
  let stripped := slashes.map stripLeadingTraversal
  stripped.map fun p =>
    if isabs p || !containsSlash p then p
    else pjoin (pjoin I.engineRoot engineSourceDir) p

/-- The action of `_absolutePaths` on one path (the list version is a
`map`; see `absolutePaths_eq_map`). -/
def absolutePathOne (I : UE4BuildInterrogator) (p : String) : String :=
  let q := stripLeadingTraversal (slashify p)
  if isabs q || !containsSlash q then q
  else pjoin (pjoin I.engineRoot engineSourceDir) q

/-- Modelled from the amended claim for C2, stage by stage: canonicalize
backslashes; when the result starts with `../`, remove every occurrence
of `../` in it (`specRemove`); leave the result alone when it is absolute
or a bare filename, otherwise rebase it onto the engine root joined with
the fixed engine-source subdirectory. -/
def absolutePathAmended (I : UE4BuildInterrogator) (p : String) : String :=
  let canon : List Char := p.data.map fun c => if c = '\\' then '/' else c
  let stripped : List Char :=
    if canon.take 3 = ['.', '.', '/'] then specRemove canon else canon
  let s : String := ⟨stripped⟩
  if isabs s || !containsSlash s then s
  else pjoin (pjoin I.engineRoot engineSourceDir) s

/-- One module record of the UnrealBuildTool JSON export, restricted to the
fields the interrogator reads.  In the export `Directory` is a single
string while the other path-bearing fields are lists (`_flatten` treats a
single string as a one-element list — see `Module.getField`).  `Type` is a
Lean keyword, so the `Type` key is embedded as `type'`. -/
structure Module where
  Name : String
  type' : String
  Directory : String
  PublicAdditionalLibraries : List String
  PublicLibraryPaths : List String
  PublicSystemIncludePaths : List String
  PublicIncludePaths : List String
  PrivateIncludePaths : List String
  PublicDefinitions : List String
deriving DecidableEq

/-- A field value as `_flatten` sees it: either a single string or a list
of strings (line 113 distinguishes the two with `isinstance(value, str)`). -/
inductive FieldVal where
  | str : String → FieldVal
  | list : List String → FieldVal
deriving DecidableEq

/-- Line 113: a single string becomes a one-element list. -/
def FieldVal.toList : FieldVal → List String
  | .str s => [s]
  | .list l => l

/-- Dictionary access `item[field]` for the seven field names the
interrogator uses (line 108).  Unknown keys never occur on the call sites;
they are mapped to an empty list to keep the function total. -/
def Module.getField (m : Module) (field : String) : FieldVal :=
  if field = "Directory" then .str m.Directory
  else if field = "PublicAdditionalLibraries" then .list m.PublicAdditionalLibraries
  else if field = "PublicLibraryPaths" then .list m.PublicLibraryPaths
  else if field = "PublicSystemIncludePaths" then .list m.PublicSystemIncludePaths
  else if field = "PublicIncludePaths" then .list m.PublicIncludePaths
  else if field = "PrivateIncludePaths" then .list m.PrivateIncludePaths
  else if field = "PublicDefinitions" then .list m.PublicDefinitions
  else .list []

/-- The flattening loop of `_flatten` (lines 111-113). -/
def flattenVals : List FieldVal → List String
  | [] => []
  | v :: rest => v.toList ++ flattenVals rest

/-- Embeds `_flatten` combined with the transform choice of lines 64-67.
The source computes `transform = (lambda l: self._absolutePaths(l)) if
field != 'Definitions' else None`; since no entry of the field list is
named `Definitions` (the definitions field is `PublicDefinitions`), the
comparison is never false and `_absolutePaths` is applied to every field,
including `PublicDefinitions`. -/
def flattenField (I : UE4BuildInterrogator) (items : List Module) (field : String) :
    List String :=
  let values := items.map fun item => item.getField field
  let flattened := flattenVals values
  if field ≠ "Definitions" then absolutePaths I flattened else flattened

/-- Embeds the bare-filename resolution loop body (lines 47-52): when the
module has both additional libraries and library paths, canonicalize each
library reference and join bare filenames (no `/`) onto the first
absolutized library path.  The list is written back into the module
record, mirroring `module['PublicAdditionalLibraries'] = libs`.  The two
list comprehensions of lines 50-51 are `resolveLibs`; the per-element
join-if-bare step of line 51 is `joinBare`. -/
def joinBare (libPath lib : String) : String :=
  if !containsSlash lib then pjoin libPath lib else lib

/-- Lines 50-51: canonicalize separators in each library reference, then
join bare filenames onto the base library path. -/
def resolveLibs (libPath : String) (libs0 : List String) : List String :=
  let libs := libs0.map slashify
  libs.map (joinBare libPath)

/-- Lines 47-52: the per-module bare-filename resolution. -/
def resolveModuleLibs (I : UE4BuildInterrogator) (m : Module) : Module :=
  if 0 < m.PublicAdditionalLibraries.length ∧ 0 < m.PublicLibraryPaths.length then
    let libPath := (absolutePaths I m.PublicLibraryPaths).headD ""
    { m with PublicAdditionalLibraries := resolveLibs libPath m.PublicAdditionalLibraries }
  else m

/-- Modelled from the spec: the collaborator class
`ThirdPartyLibraryDetails` is not under `src/` (only this interrogator
is).  Per the spec it is a bundle of five flag sets (prefix directories,
include directories, link directories, preprocessor definitions,
libraries), default-constructed empty, positionally constructed from the
aggregated lists, whose `merge` union-extends each field of the result
with the corresponding field of the other instance (result sets are
deduplicated, order-insensitive). -/
structure ThirdPartyLibraryDetails where
  prefixDirs : List String
  includeDirs : List String
  linkDirs : List String
  definitions : List String
  libs : List String
deriving DecidableEq

/-- Modelled from the spec: `ThirdPartyLibraryDetails()` with no arguments
is the empty flag bundle. -/
def ThirdPartyLibraryDetails.empty : ThirdPartyLibraryDetails :=
  ⟨[], [], [], [], []⟩

/-- Modelled from the spec: `details.merge(override)` union-extends every
field. -/
def ThirdPartyLibraryDetails.merge (d o : ThirdPartyLibraryDetails) :
    ThirdPartyLibraryDetails :=
  ⟨(d.prefixDirs ++ o.prefixDirs).dedup,
   (d.includeDirs ++ o.includeDirs).dedup,
   (d.linkDirs ++ o.linkDirs).dedup,
   (d.definitions ++ o.definitions).dedup,
   (d.libs ++ o.libs).dedup⟩

/-- Behaviour of the external world for one call: what `json.loads ∘
readFile` would yield after a UBT invocation — either the parsed module
map values, or a read/parse failure (missing or malformed export file). -/
inductive UBTOutcome where
  | success : List Module → UBTOutcome
  | parseFailure : UBTOutcome
deriving DecidableEq

/-- The error taxonomy visible to this core: a failed read/parse of the
JSON export propagates to the caller. -/
inductive UBTError where
  | parseError : UBTError
deriving DecidableEq

/-- External state threaded through the interrogator.  `cache` is
modelled from the spec: the `CachedDataManager` collaborator is not under
`src/`, and the spec describes it as persistent cross-run cache storage,
an opaque key-value store — so the entry
`(engineVersionHash, 'ThirdPartyLibraries')` is held by value:
`getCachedDataKey` returns the stored value, `setCachedDataKey` replaces
it, and there is no reference aliasing between the stored list and any
list a caller later mutates.  The other fields give the behaviour of the
UBT invocation, the host platform test `platform.system() == 'Linux'`
(line 133), and whether `shutil.rmtree` would fail (line 145). -/
structure Env where
  cache : Option (List Module)
  ubt : UBTOutcome
  hostIsLinux : Bool
  rmtreeFails : Bool
deriving DecidableEq

/-- Observable outcome of `_getThirdPartyLibs`: the returned value or
propagated error, the updated environment, the UBT invocations performed
(target, platform, configuration), and the temp-directory lifecycle. -/
structure GTPLOutcome where
  result : Except UBTError (List Module)
  env : Env
  ubtCalls : List (String × String × String)
  tempDirCreated : Bool
  removalAttempted : Bool
  tempDirRemoved : Bool

/-- Embeds `_getThirdPartyLibs` (lines 118-152).  On a cache hit the
cached list is returned unchanged.  On a miss: a temp directory is
created, UBT is invoked, the export is read and parsed — a failure there
propagates immediately, before the `shutil.rmtree` call is reached, so
the temp directory is not removed on that path.  On success the
third-party modules are extracted, `rmtree` is attempted with its failure
swallowed (`try ... except: pass`), and the list is cached. -/
def getThirdPartyLibs (env : Env) (platformIdentifier configuration : String) :
    GTPLOutcome :=
  match env.cache with
  | some cachedList => ⟨.ok cachedList, env, [], false, false, false⟩
  | none =>
    let target := if env.hostIsLinux then "UE4Editor" else "UE4Game"
    match env.ubt with
    | .parseFailure =>
      ⟨.error .parseError, env, [(target, platformIdentifier, configuration)],
       true, false, false⟩
    | .success mods =>
      let thirdparty := mods.filter fun m => m.type' = "EngineThirdParty"
      ⟨.ok thirdparty, { env with cache := some thirdparty },
       [(target, platformIdentifier, configuration)], true, true, !env.rmtreeFails⟩

/-- Embeds `lib in libOverrides` / `libOverrides[lib]` where the override
mapping is given as an association list. -/
def lookupOverride (libOverrides : List (String × ThirdPartyLibraryDetails))
    (lib : String) : Option ThirdPartyLibraryDetails :=
  (libOverrides.find? fun kv => kv.1 = lib).map fun kv => kv.2

/-- Line 28: the requested names whose flags must come from UBT modules. -/
def libModulesOf (libOverrides : List (String × ThirdPartyLibraryDetails))
    (libraries : List String) : List String :=
  libraries.filter fun lib => (lookupOverride libOverrides lib).isNone

/-- Line 85: the overrides to apply, in the order the caller listed the
names. -/
def overridesToApplyOf (libOverrides : List (String × ThirdPartyLibraryDetails))
    (libraries : List String) : List ThirdPartyLibraryDetails :=
  (libraries.filter fun lib => (lookupOverride libOverrides lib).isSome).map
    fun lib => (lookupOverride libOverrides lib).getD ThirdPartyLibraryDetails.empty

/-- Line 38: filter the modules to those whose name was requested. -/
def selectedModules (libModules : List String) (mods : List Module) : List Module :=
  mods.filter fun m => libModules.contains m.Name

/-- Lines 41-42: the requested names with no matching module, quoted. -/
def unsupportedOf (libModules : List String) (modules : List Module) : List String :=
  (libModules.filter fun s => !(modules.map fun m => m.Name).contains s).map
    fun s => "\"" ++ s ++ "\""

/-- Lines 43-44: a single stderr warning when any requested name is
unsupported. -/
def warningsOf (unsupported : List String) : List String :=
  if 0 < unsupported.length then
    ["Warning: unsupported libraries " ++ String.intercalate "," unsupported]
  else []

/-- Lines 54-82: flatten the seven fields of the (already resolved)
selected modules and package them.  `list(set(...))` on line 73 is
deduplication with unspecified order; it is embedded as `List.dedup`, and
every claim about `prefixDirs` is stated order-insensitively. -/
def detailsFromModules (I : UE4BuildInterrogator) (modules : List Module) :
    ThirdPartyLibraryDetails :=
  let flattened := fun field => flattenField I modules field
  let libraryDirectories := flattened "PublicLibraryPaths"
  let headerDirectories := flattened "PublicSystemIncludePaths" ++
    flattened "PublicIncludePaths" ++ flattened "PrivateIncludePaths"
  let prefixDirectories := (flattened "Directory" ++ headerDirectories ++
    libraryDirectories ++ (headerDirectories ++ libraryDirectories).map dirname).dedup
  { prefixDirs := prefixDirectories
    includeDirs := headerDirectories
    linkDirs := libraryDirectories
    definitions := flattened "PublicDefinitions"
    libs := flattened "PublicAdditionalLibraries" }

/-- Observable outcome of `interrogate`: the returned details or the
propagated error, the updated environment, the number of
`_getThirdPartyLibs` calls, the UBT invocations, and the warnings
printed to stderr. -/
structure InterrogateOutcome where
  result : Except UBTError ThirdPartyLibraryDetails
  env : Env
  retrievals : Nat
  ubtCalls : List (String × String × String)
  warnings : List String

/-- Embeds `interrogate` (lines 22-89).  The requested `libraries`
iterable is taken in caller order.  When at least one requested name is
not override-only, the third-party modules are retrieved, filtered by
name, a single warning is emitted if any requested name matched no
module, bare filenames are resolved in the per-call module list, the
fields are flattened and packaged.  Overrides are applied last, each
exactly once, in request order.  The only cache write is the one inside
`_getThirdPartyLibs` on a miss (line 150), which stores the
pre-resolution third-party list; with the cache held by value (see
`Env`), the in-call resolution does not reach the store. -/
def interrogate (I : UE4BuildInterrogator) (env : Env)
    (platformIdentifier configuration : String) (libraries : List String)
    (libOverrides : List (String × ThirdPartyLibraryDetails)) : InterrogateOutcome :=
  let libModules := libModulesOf libOverrides libraries
  let overridesToApply := overridesToApplyOf libOverrides libraries
  if 0 < libModules.length then
    match getThirdPartyLibs env platformIdentifier configuration with
    | ⟨.error e, env', calls, _, _, _⟩ => ⟨.error e, env', 1, calls, []⟩
    | ⟨.ok mods, env', calls, _, _, _⟩ =>
      let modules := selectedModules libModules mods
      let warnings := warningsOf (unsupportedOf libModules modules)
      let resolved := modules.map (resolveModuleLibs I)
      let details := detailsFromModules I resolved
      ⟨.ok (overridesToApply.foldl ThirdPartyLibraryDetails.merge details),
       env', 1, calls, warnings⟩
  else
    ⟨.ok (overridesToApply.foldl ThirdPartyLibraryDetails.merge
        ThirdPartyLibraryDetails.empty), env, 0, [], []⟩

/-- Concrete engine root used by the witnesses. -/
def I0 : UE4BuildInterrogator := ⟨"/opt/UE"⟩

/-- Concrete third-party module used by the witnesses. -/
def zlibModule : Module where
  Name := "zlib"
  type' := "EngineThirdParty"
  Directory := "ThirdParty/zlib"
  PublicAdditionalLibraries := ["foo.lib", "sub/foo.lib"]
  PublicLibraryPaths := ["/eng/Lib"]
  PublicSystemIncludePaths := ["../ThirdParty/zlib/include"]
  PublicIncludePaths := []
  PrivateIncludePaths := []
  PublicDefinitions := ["ZLIB_PATH=third/party", "WITH_ZLIB=1"]

/-- Second concrete third-party module used by the witnesses. -/
def pngModule : Module where
  Name := "libpng"
  type' := "EngineThirdParty"
  Directory := "ThirdParty/libpng"
  PublicAdditionalLibraries := ["png.lib"]
  PublicLibraryPaths := ["/eng/PngLib"]
  PublicSystemIncludePaths := []
  PublicIncludePaths := ["../ThirdParty/libpng/include"]
  PrivateIncludePaths := []
  PublicDefinitions := ["WITH_PNG=1"]

/-- Concrete environment used by the witnesses: the cache already holds
the zlib module. -/
def env0 : Env := ⟨some [zlibModule], .success [], true, false⟩

/-- Concrete override bundle used by the witnesses. -/
def ovD : ThirdPartyLibraryDetails :=
  ⟨["/ov/pre"], ["/ov/inc"], ["/ov/link"], ["OV=1"], ["/ov/x.lib"]⟩

/-- The prefix-directory invariant of the spec data model: `prefixDirs`
contains every include directory, every link directory, and the parent
directory of each. -/
def PrefixClosed (d : ThirdPartyLibraryDetails) : Prop :=
  (∀ p ∈ d.includeDirs, p ∈ d.prefixDirs ∧ dirname p ∈ d.prefixDirs) ∧
  (∀ p ∈ d.linkDirs, p ∈ d.prefixDirs ∧ dirname p ∈ d.prefixDirs)

/-- Concatenation of one list-valued field over a module list, the shape
`_flatten` produces; used to state the flattening lemmas. -/
def catLists (f : Module → List String) : List Module → List String
  | [] => []
  | m :: rest => f m ++ catLists f rest

theorem absolutePaths_eq_map (I : UE4BuildInterrogator) (paths : List String) :
    absolutePaths I paths = paths.map (absolutePathOne I) := by
  simp [absolutePaths, absolutePathOne, List.map_map, Function.comp_def]

theorem slashify_slashify (p : String) : slashify (slashify p) = slashify p := by
  unfold slashify
  simp only [List.map_map]
  congr 1
  apply List.map_congr_left
  intro c _
  by_cases h : c = '\\' <;> simp [Function.comp, h]

theorem containsSlash_iff (p : String) : containsSlash p = true ↔ '/' ∈ p.data := by
  simp [containsSlash]

theorem containsSlash_slashify_of (p : String) (h : containsSlash p = true) :
    containsSlash (slashify p) = true := by
  rw [containsSlash_iff] at h ⊢
  unfold slashify
  have : ('/' : Char) = if ('/' : Char) = '\\' then '/' else '/' := by decide
  exact List.mem_map.mpr ⟨'/', h, by decide⟩

theorem isabs_false_of_not_containsSlash (l : String) (h : containsSlash l = false) :
    isabs l = false := by
  unfold isabs
  rcases hd : l.data with _ | ⟨c, t⟩
  · rfl
  · split
    · rename_i heq
      cases heq
      have hmem : containsSlash l = true := by
        rw [containsSlash_iff, hd]
        exact List.mem_cons_self _ _
      rw [hmem] at h
      exact h
    · rfl

theorem pjoin_empty_left (l : String) : pjoin "" l = l := by
  unfold pjoin
  split
  · rfl
  · rw [if_pos (Or.inl rfl)]
    rcases l with ⟨d⟩
    rfl

theorem mem_of_isabs (b : String) (h : isabs b = true) : '/' ∈ b.data := by
  unfold isabs at h
  split at h
  · rename_i heq
    rw [heq]
    exact List.mem_cons_self _ _
  · exact absurd h (by simp)

theorem mem_of_endsSlash (a : String) (h : endsSlash a = true) : '/' ∈ a.data := by
  unfold endsSlash at h
  rw [← List.mem_reverse]
  split at h
  · rename_i heq
    rw [heq]
    exact List.mem_cons_self _ _
  · exact absurd h (by simp)

theorem data_append (a b : String) : (a ++ b).data = a.data ++ b.data := rfl

theorem containsSlash_pjoin (a b : String) (ha : a.data ≠ []) :
    containsSlash (pjoin a b) = true := by
  unfold pjoin
  split
  · rename_i hb
    rw [containsSlash_iff]
    exact mem_of_isabs b hb
  · split
    · rename_i hor
      rcases hor with h0 | hend
      · exact absurd h0 ha
      · rw [containsSlash_iff, data_append]
        exact List.mem_append_left _ (mem_of_endsSlash a hend)
    · rw [containsSlash_iff, data_append, data_append]
      refine List.mem_append_left _ (List.mem_append_right _ ?_)
      exact List.mem_cons_self _ _

theorem absOne_slashify (I : UE4BuildInterrogator) (p : String) :
    absolutePathOne I (slashify p) = absolutePathOne I p := by
  unfold absolutePathOne
  rw [slashify_slashify]

theorem resolveModuleLibs_Name (I : UE4BuildInterrogator) (m : Module) :
    (resolveModuleLibs I m).Name = m.Name := by
  unfold resolveModuleLibs
  split <;> rfl

theorem resolveModuleLibs_PublicLibraryPaths (I : UE4BuildInterrogator) (m : Module) :
    (resolveModuleLibs I m).PublicLibraryPaths = m.PublicLibraryPaths := by
  unfold resolveModuleLibs
  split <;> rfl

theorem getField_resolveModuleLibs (I : UE4BuildInterrogator) (m : Module)
    (field : String) (hf : field ≠ "PublicAdditionalLibraries") :
    (resolveModuleLibs I m).getField field = m.getField field := by
  unfold resolveModuleLibs
  split
  · unfold Module.getField
    split_ifs <;> rfl
  · rfl

theorem resolveLibs_length (libPath : String) (libs0 : List String) :
    (resolveLibs libPath libs0).length = libs0.length := by
  simp [resolveLibs]

theorem resolveModuleLibs_PAL_of_pos (I : UE4BuildInterrogator) (m : Module)
    (hg : 0 < m.PublicAdditionalLibraries.length ∧ 0 < m.PublicLibraryPaths.length) :
    (resolveModuleLibs I m).PublicAdditionalLibraries =
      resolveLibs ((absolutePaths I m.PublicLibraryPaths).headD "")
        m.PublicAdditionalLibraries := by
  unfold resolveModuleLibs
  rw [if_pos hg]

theorem resolveModuleLibs_of_neg (I : UE4BuildInterrogator) (m : Module)
    (hg : ¬ (0 < m.PublicAdditionalLibraries.length ∧
      0 < m.PublicLibraryPaths.length)) :
    resolveModuleLibs I m = m := by
  unfold resolveModuleLibs
  rw [if_neg hg]

theorem absOne_joinBare_stable (I : UE4BuildInterrogator) (lp x : String) :
    absolutePathOne I (joinBare lp (slashify (joinBare lp (slashify x)))) =
      absolutePathOne I (joinBare lp (slashify x)) := by
  by_cases hc : containsSlash (slashify x) = true
  · have h1 : joinBare lp (slashify x) = slashify x := by
      simp [joinBare, hc]
    rw [h1, slashify_slashify, h1]
  · rw [Bool.not_eq_true] at hc
    have h1 : joinBare lp (slashify x) = pjoin lp (slashify x) := by
      simp [joinBare, hc]
    by_cases ha : lp.data = []
    · have hlp : lp = "" := by
        rcases lp with ⟨d⟩
        cases ha
        rfl
      subst hlp
      rw [h1, pjoin_empty_left, slashify_slashify, h1, pjoin_empty_left]
    · have h2 : containsSlash (pjoin lp (slashify x)) = true :=
        containsSlash_pjoin _ _ ha
      have h3 : containsSlash (slashify (pjoin lp (slashify x))) = true :=
        containsSlash_slashify_of _ h2
      have h4 : joinBare lp (slashify (pjoin lp (slashify x))) =
          slashify (pjoin lp (slashify x)) := by
        simp [joinBare, h3]
      rw [h1, h4, absOne_slashify]

theorem map_absOne_resolveLibs_idem (I : UE4BuildInterrogator) (lp : String)
    (xs : List String) :
    (resolveLibs lp (resolveLibs lp xs)).map (absolutePathOne I) =
      (resolveLibs lp xs).map (absolutePathOne I) := by
  unfold resolveLibs
  simp only [List.map_map]
  apply List.map_congr_left
  intro x _
  exact absOne_joinBare_stable I lp x

theorem map_absOne_PAL_resolve_resolve (I : UE4BuildInterrogator) (m : Module) :
    ((resolveModuleLibs I (resolveModuleLibs I m)).PublicAdditionalLibraries).map
        (absolutePathOne I) =
      ((resolveModuleLibs I m).PublicAdditionalLibraries).map (absolutePathOne I) := by
  by_cases hg : 0 < m.PublicAdditionalLibraries.length ∧ 0 < m.PublicLibraryPaths.length
  · have hg' : 0 < (resolveModuleLibs I m).PublicAdditionalLibraries.length ∧
        0 < (resolveModuleLibs I m).PublicLibraryPaths.length := by
      rw [resolveModuleLibs_PAL_of_pos I m hg, resolveModuleLibs_PublicLibraryPaths]
      exact ⟨by simpa [resolveLibs_length] using hg.1, hg.2⟩
    rw [resolveModuleLibs_PAL_of_pos I (resolveModuleLibs I m) hg',
      resolveModuleLibs_PublicLibraryPaths, resolveModuleLibs_PAL_of_pos I m hg]
    exact map_absOne_resolveLibs_idem I _ _
  · simp only [resolveModuleLibs_of_neg I m hg]

theorem mem_catLists (f : Module → List String) (mods : List Module) (p : String) :
    p ∈ catLists f mods ↔ ∃ m ∈ mods, p ∈ f m := by
  induction mods with
  | nil => simp [catLists]
  | cons m rest ih => simp [catLists, ih]

theorem catLists_map (f : Module → List String) (g : Module → Module)
    (mods : List Module) :
    catLists f (mods.map g) = catLists (fun m => f (g m)) mods := by
  induction mods with
  | nil => rfl
  | cons m rest ih => simp [catLists, ih]

theorem catLists_congr (f f' : Module → List String) (mods : List Module)
    (h : ∀ m ∈ mods, f m = f' m) :
    catLists f mods = catLists f' mods := by
  induction mods with
  | nil => rfl
  | cons m rest ih =>
    simp only [catLists, h m (List.mem_cons_self _ _)]
    rw [ih fun m hm => h m (List.mem_cons_of_mem _ hm)]

theorem map_catLists (f : Module → List String) (h : String → String)
    (mods : List Module) :
    (catLists f mods).map h = catLists (fun m => (f m).map h) mods := by
  induction mods with
  | nil => rfl
  | cons m rest ih => simp [catLists, ih]

theorem getField_Directory (m : Module) :
    m.getField "Directory" = .str m.Directory := by
  simp [Module.getField]

theorem getField_PublicAdditionalLibraries (m : Module) :
    m.getField "PublicAdditionalLibraries" = .list m.PublicAdditionalLibraries := by
  simp [Module.getField]

theorem getField_PublicLibraryPaths (m : Module) :
    m.getField "PublicLibraryPaths" = .list m.PublicLibraryPaths := by
  simp [Module.getField]

theorem getField_PublicSystemIncludePaths (m : Module) :
    m.getField "PublicSystemIncludePaths" = .list m.PublicSystemIncludePaths := by
  simp [Module.getField]

theorem getField_PublicIncludePaths (m : Module) :
    m.getField "PublicIncludePaths" = .list m.PublicIncludePaths := by
  simp [Module.getField]

theorem getField_PrivateIncludePaths (m : Module) :
    m.getField "PrivateIncludePaths" = .list m.PrivateIncludePaths := by
  simp [Module.getField]

theorem getField_PublicDefinitions (m : Module) :
    m.getField "PublicDefinitions" = .list m.PublicDefinitions := by
  simp [Module.getField]

theorem flattenVals_eq_catLists (fld : String) (f : Module → List String)
    (hf : ∀ m : Module, m.getField fld = .list (f m)) (mods : List Module) :
    flattenVals (mods.map fun item => item.getField fld) = catLists f mods := by
  induction mods with
  | nil => rfl
  | cons m rest ih =>
    have hstep : flattenVals ((m :: rest).map fun item => item.getField fld) =
        (m.getField fld).toList ++ flattenVals (rest.map fun item => item.getField fld) :=
      rfl
    rw [hstep, hf m, ih]
    rfl

theorem flattenVals_eq_catLists_str (fld : String) (f : Module → String)
    (hf : ∀ m : Module, m.getField fld = .str (f m)) (mods : List Module) :
    flattenVals (mods.map fun item => item.getField fld) =
      catLists (fun m => [f m]) mods := by
  induction mods with
  | nil => rfl
  | cons m rest ih =>
    have hstep : flattenVals ((m :: rest).map fun item => item.getField fld) =
        (m.getField fld).toList ++ flattenVals (rest.map fun item => item.getField fld) :=
      rfl
    rw [hstep, hf m, ih]
    rfl

theorem flattenField_Directory (I : UE4BuildInterrogator) (mods : List Module) :
    flattenField I mods "Directory" =
      (catLists (fun m => [m.Directory]) mods).map (absolutePathOne I) := by
  unfold flattenField
  rw [if_pos (by decide), absolutePaths_eq_map,
    flattenVals_eq_catLists_str _ _ getField_Directory]

theorem flattenField_PublicAdditionalLibraries (I : UE4BuildInterrogator)
    (mods : List Module) :
    flattenField I mods "PublicAdditionalLibraries" =
      (catLists (fun m => m.PublicAdditionalLibraries) mods).map (absolutePathOne I) := by
  unfold flattenField
  rw [if_pos (by decide), absolutePaths_eq_map,
    flattenVals_eq_catLists _ _ getField_PublicAdditionalLibraries]

theorem flattenField_PublicLibraryPaths (I : UE4BuildInterrogator)
    (mods : List Module) :
    flattenField I mods "PublicLibraryPaths" =
      (catLists (fun m => m.PublicLibraryPaths) mods).map (absolutePathOne I) := by
  unfold flattenField
  rw [if_pos (by decide), absolutePaths_eq_map,
    flattenVals_eq_catLists _ _ getField_PublicLibraryPaths]

theorem flattenField_PublicSystemIncludePaths (I : UE4BuildInterrogator)
    (mods : List Module) :
    flattenField I mods "PublicSystemIncludePaths" =
      (catLists (fun m => m.PublicSystemIncludePaths) mods).map (absolutePathOne I) := by
  unfold flattenField
  rw [if_pos (by decide), absolutePaths_eq_map,
    flattenVals_eq_catLists _ _ getField_PublicSystemIncludePaths]

theorem flattenField_PublicIncludePaths (I : UE4BuildInterrogator)
    (mods : List Module) :
    flattenField I mods "PublicIncludePaths" =
      (catLists (fun m => m.PublicIncludePaths) mods).map (absolutePathOne I) := by
  unfold flattenField
  rw [if_pos (by decide), absolutePaths_eq_map,
    flattenVals_eq_catLists _ _ getField_PublicIncludePaths]

theorem flattenField_PrivateIncludePaths (I : UE4BuildInterrogator)
    (mods : List Module) :
    flattenField I mods "PrivateIncludePaths" =
      (catLists (fun m => m.PrivateIncludePaths) mods).map (absolutePathOne I) := by
  unfold flattenField
  rw [if_pos (by decide), absolutePaths_eq_map,
    flattenVals_eq_catLists _ _ getField_PrivateIncludePaths]

theorem flattenField_PublicDefinitions (I : UE4BuildInterrogator)
    (mods : List Module) :
    flattenField I mods "PublicDefinitions" =
      (catLists (fun m => m.PublicDefinitions) mods).map (absolutePathOne I) := by
  unfold flattenField
  rw [if_pos (by decide), absolutePaths_eq_map,
    flattenVals_eq_catLists _ _ getField_PublicDefinitions]

theorem flattenField_map_resolve (I : UE4BuildInterrogator) (mods : List Module)
    (fld : String) (hfld : fld ≠ "PublicAdditionalLibraries") :
    flattenField I (mods.map (resolveModuleLibs I)) fld = flattenField I mods fld := by
  unfold flattenField
  have hmaps : (mods.map (resolveModuleLibs I)).map (fun item => item.getField fld) =
      mods.map fun item => item.getField fld := by
    rw [List.map_map]
    apply List.map_congr_left
    intro m _
    exact getField_resolveModuleLibs I m fld hfld
  rw [hmaps]

theorem flattenField_PAL_map_resolve_resolve (I : UE4BuildInterrogator)
    (mods : List Module) :
    flattenField I ((mods.map (resolveModuleLibs I)).map (resolveModuleLibs I))
        "PublicAdditionalLibraries" =
      flattenField I (mods.map (resolveModuleLibs I)) "PublicAdditionalLibraries" := by
  rw [flattenField_PublicAdditionalLibraries, flattenField_PublicAdditionalLibraries,
    catLists_map, catLists_map, map_catLists, map_catLists, catLists_map]
  apply catLists_congr
  intro m _
  exact map_absOne_PAL_resolve_resolve I m

theorem detailsFromModules_map_resolve_resolve (I : UE4BuildInterrogator)
    (mods : List Module) :
    detailsFromModules I ((mods.map (resolveModuleLibs I)).map (resolveModuleLibs I)) =
      detailsFromModules I (mods.map (resolveModuleLibs I)) := by
  simp only [detailsFromModules]
  rw [flattenField_map_resolve I _ "Directory" (by decide),
    flattenField_map_resolve I _ "PublicLibraryPaths" (by decide),
    flattenField_map_resolve I _ "PublicSystemIncludePaths" (by decide),
    flattenField_map_resolve I _ "PublicIncludePaths" (by decide),
    flattenField_map_resolve I _ "PrivateIncludePaths" (by decide),
    flattenField_map_resolve I _ "PublicDefinitions" (by decide),
    flattenField_PAL_map_resolve_resolve]

theorem gtpl_hit (env : Env) (pid cfg : String) (M : List Module)
    (hc : env.cache = some M) :
    getThirdPartyLibs env pid cfg = ⟨.ok M, env, [], false, false, false⟩ := by
  unfold getThirdPartyLibs
  rw [hc]

theorem interrogate_hit (I : UE4BuildInterrogator) (env : Env) (pid cfg : String)
    (libraries : List String) (ov : List (String × ThirdPartyLibraryDetails))
    (M : List Module) (hc : env.cache = some M)
    (h : 0 < (libModulesOf ov libraries).length) :
    interrogate I env pid cfg libraries ov =
      ⟨.ok ((overridesToApplyOf ov libraries).foldl ThirdPartyLibraryDetails.merge
          (detailsFromModules I
            ((selectedModules (libModulesOf ov libraries) M).map (resolveModuleLibs I)))),
       env, 1, [],
       warningsOf (unsupportedOf (libModulesOf ov libraries)
         (selectedModules (libModulesOf ov libraries) M))⟩ := by
  unfold interrogate
  rw [if_pos h, gtpl_hit env pid cfg M hc]

theorem interrogate_skip (I : UE4BuildInterrogator) (env : Env) (pid cfg : String)
    (libraries : List String) (ov : List (String × ThirdPartyLibraryDetails))
    (h : ¬ 0 < (libModulesOf ov libraries).length) :
    interrogate I env pid cfg libraries ov =
      ⟨.ok ((overridesToApplyOf ov libraries).foldl ThirdPartyLibraryDetails.merge
          ThirdPartyLibraryDetails.empty), env, 0, [], []⟩ := by
  unfold interrogate
  rw [if_neg h]

theorem specRemove_eq_removeDotDotSlash (cs : List Char) :
    specRemove cs = removeDotDotSlash cs := by
  induction cs using specRemove.induct with
  | case1 => simp only [specRemove]; rfl
  | case2 c rest h ih =>
    rcases rest with _ | ⟨d, rest2⟩
    · simp [List.take] at h
    rcases rest2 with _ | ⟨e, t⟩
    · simp [List.take] at h
    obtain ⟨rfl, rfl, rfl⟩ : c = '.' ∧ d = '.' ∧ e = '/' := by
      simpa [List.take] using h
    have h1 : specRemove ('.' :: '.' :: '/' :: t) = specRemove t := by
      simp only [specRemove]
      rfl
    rw [h1, show removeDotDotSlash ('.' :: '.' :: '/' :: t) = removeDotDotSlash t from rfl]
    exact ih
  | case3 c rest h ih =>
    have h1 : specRemove (c :: rest) = c :: specRemove rest := by
      simp only [specRemove]
      rw [if_neg h]
    rw [h1, ih]
    conv_rhs => rw [removeDotDotSlash.eq_def]
    split
    · rename_i rest1 heq
      refine absurd ?_ h
      rw [heq]
      rfl
    · rename_i x c2 rest2 hno hlist
      cases hlist
      rfl
    · rename_i heq
      exact absurd heq (by simp)

theorem stripLeadingTraversal_eq_spec (q : String) :
    stripLeadingTraversal q =
      ⟨if q.data.take 3 = ['.', '.', '/'] then specRemove q.data else q.data⟩ := by
  unfold stripLeadingTraversal
  by_cases h : q.data.take 3 = ['.', '.', '/']
  · rw [if_pos (by simp [startsTraversal, h]), if_pos h,
      specRemove_eq_removeDotDotSlash]
  · rw [if_neg (by simp [startsTraversal, h]), if_neg h]

theorem contains_iff_mem (l : List String) (a : String) :
    l.contains a = true ↔ a ∈ l := by
  simp

theorem resolveModuleLibs_Directory (I : UE4BuildInterrogator) (m : Module) :
    (resolveModuleLibs I m).Directory = m.Directory := by
  unfold resolveModuleLibs
  split <;> rfl

theorem resolveModuleLibs_PublicSystemIncludePaths (I : UE4BuildInterrogator)
    (m : Module) :
    (resolveModuleLibs I m).PublicSystemIncludePaths = m.PublicSystemIncludePaths := by
  unfold resolveModuleLibs
  split <;> rfl

theorem resolveModuleLibs_PublicIncludePaths (I : UE4BuildInterrogator) (m : Module) :
    (resolveModuleLibs I m).PublicIncludePaths = m.PublicIncludePaths := by
  unfold resolveModuleLibs
  split <;> rfl

theorem resolveModuleLibs_PrivateIncludePaths (I : UE4BuildInterrogator) (m : Module) :
    (resolveModuleLibs I m).PrivateIncludePaths = m.PrivateIncludePaths := by
  unfold resolveModuleLibs
  split <;> rfl

theorem detailsFromModules_prefixDirs (I : UE4BuildInterrogator) (mods : List Module) :
    (detailsFromModules I mods).prefixDirs =
      (flattenField I mods "Directory" ++
        (flattenField I mods "PublicSystemIncludePaths" ++
          flattenField I mods "PublicIncludePaths" ++
          flattenField I mods "PrivateIncludePaths") ++
        flattenField I mods "PublicLibraryPaths" ++
        ((flattenField I mods "PublicSystemIncludePaths" ++
            flattenField I mods "PublicIncludePaths" ++
            flattenField I mods "PrivateIncludePaths") ++
          flattenField I mods "PublicLibraryPaths").map dirname).dedup := rfl

theorem detailsFromModules_includeDirs (I : UE4BuildInterrogator) (mods : List Module) :
    (detailsFromModules I mods).includeDirs =
      flattenField I mods "PublicSystemIncludePaths" ++
        flattenField I mods "PublicIncludePaths" ++
        flattenField I mods "PrivateIncludePaths" := rfl

theorem detailsFromModules_linkDirs (I : UE4BuildInterrogator) (mods : List Module) :
    (detailsFromModules I mods).linkDirs =
      flattenField I mods "PublicLibraryPaths" := rfl

theorem libModulesOf_nil (libraries : List String) :
    libModulesOf [] libraries = libraries := by
  simp [libModulesOf, lookupOverride]

theorem overridesToApplyOf_nil (libraries : List String) :
    overridesToApplyOf [] libraries = [] := by
  simp [overridesToApplyOf, lookupOverride]

theorem merge_prefixDirs_mono (a b : ThirdPartyLibraryDetails) (x : String)
    (hx : x ∈ a.prefixDirs) : x ∈ (a.merge b).prefixDirs := by
  unfold ThirdPartyLibraryDetails.merge
  rw [List.mem_dedup]
  exact List.mem_append_left _ hx

theorem merge_closed (a b : ThirdPartyLibraryDetails) (ha : PrefixClosed a)
    (hb : PrefixClosed b) : PrefixClosed (a.merge b) := by
  unfold PrefixClosed ThirdPartyLibraryDetails.merge at *
  constructor <;> intro p hp <;> rw [List.mem_dedup, List.mem_append] at hp <;>
    constructor <;> rw [List.mem_dedup, List.mem_append]
  · rcases hp with hp | hp
    · exact Or.inl (ha.1 p hp).1
    · exact Or.inr (hb.1 p hp).1
  · rcases hp with hp | hp
    · exact Or.inl (ha.1 p hp).2
    · exact Or.inr (hb.1 p hp).2
  · rcases hp with hp | hp
    · exact Or.inl (ha.2 p hp).1
    · exact Or.inr (hb.2 p hp).1
  · rcases hp with hp | hp
    · exact Or.inl (ha.2 p hp).2
    · exact Or.inr (hb.2 p hp).2

theorem foldl_merge_prefixDirs_mono (l : List ThirdPartyLibraryDetails)
    (base : ThirdPartyLibraryDetails) (x : String) (hx : x ∈ base.prefixDirs) :
    x ∈ (l.foldl ThirdPartyLibraryDetails.merge base).prefixDirs := by
  induction l generalizing base with
  | nil => exact hx
  | cons o rest ih => exact ih _ (merge_prefixDirs_mono base o x hx)

theorem foldl_merge_nodup (l : List ThirdPartyLibraryDetails)
    (base : ThirdPartyLibraryDetails) (hb : base.prefixDirs.Nodup) :
    (l.foldl ThirdPartyLibraryDetails.merge base).prefixDirs.Nodup := by
  induction l generalizing base with
  | nil => exact hb
  | cons o rest ih => exact ih _ (List.nodup_dedup _)

theorem foldl_merge_closed (l : List ThirdPartyLibraryDetails)
    (base : ThirdPartyLibraryDetails) (hb : PrefixClosed base)
    (hl : ∀ o ∈ l, PrefixClosed o) :
    PrefixClosed (l.foldl ThirdPartyLibraryDetails.merge base) := by
  induction l generalizing base with
  | nil => exact hb
  | cons o rest ih =>
    exact ih _ (merge_closed base o hb (hl o (List.mem_cons_self _ _)))
      fun o' ho' => hl o' (List.mem_cons_of_mem _ ho')

theorem empty_closed : PrefixClosed ThirdPartyLibraryDetails.empty := by
  constructor <;> intro p hp <;> exact absurd hp (by simp [ThirdPartyLibraryDetails.empty])

theorem detailsFromModules_closed (I : UE4BuildInterrogator) (mods : List Module) :
    PrefixClosed (detailsFromModules I mods) := by
  constructor <;> intro p hp
  · rw [detailsFromModules_includeDirs] at hp
    constructor <;> rw [detailsFromModules_prefixDirs, List.mem_dedup]
    · exact List.mem_append_left _ (List.mem_append_left _ (List.mem_append_right _ hp))
    · exact List.mem_append_right _
        (List.mem_map_of_mem dirname (List.mem_append_left _ hp))
  · rw [detailsFromModules_linkDirs] at hp
    constructor <;> rw [detailsFromModules_prefixDirs, List.mem_dedup]
    · exact List.mem_append_left _ (List.mem_append_right _ hp)
    · exact List.mem_append_right _
        (List.mem_map_of_mem dirname (List.mem_append_right _ hp))

theorem overridesToApply_closed (ov : List (String × ThirdPartyLibraryDetails))
    (libraries : List String) (hov : ∀ kv ∈ ov, PrefixClosed kv.2) :
    ∀ o ∈ overridesToApplyOf ov libraries, PrefixClosed o := by
  intro o ho
  unfold overridesToApplyOf at ho
  rw [List.mem_map] at ho
  obtain ⟨lib, _, rfl⟩ := ho
  cases hfind : lookupOverride ov lib with
  | none => exact empty_closed
  | some dd =>
    unfold lookupOverride at hfind
    obtain ⟨kv, hkv, hdd⟩ := Option.map_eq_some'.mp hfind
    have hmem := List.mem_of_find?_eq_some hkv
    exact hdd ▸ hov kv hmem

theorem mem_flatten_filter_mono (I : UE4BuildInterrogator)
    (f : Module → List String)
    (hpres : ∀ m, f (resolveModuleLibs I m) = f m)
    (q : Module → Bool) (M : List Module) (p : String)
    (hp : p ∈ (catLists f ((M.filter q).map (resolveModuleLibs I))).map
      (absolutePathOne I)) :
    p ∈ (catLists f (M.map (resolveModuleLibs I))).map (absolutePathOne I) := by
  rw [catLists_map, catLists_congr _ _ _ fun m _ => hpres m] at hp ⊢
  rw [List.mem_map] at hp ⊢
  obtain ⟨x, hx, rfl⟩ := hp
  refine ⟨x, ?_, rfl⟩
  rw [mem_catLists] at hx ⊢
  obtain ⟨m, hm, hxm⟩ := hx
  exact ⟨m, (List.mem_filter.mp hm).1, hxm⟩

/-- Claim C1 (code bug): the spec says `PublicDefinitions` passes through
path absolutization unaltered, but the code applies `_absolutePaths` to
it: the transform exemption on line 66 compares the field name against
`'Definitions'` while the field list of lines 55-63 names the field
`'PublicDefinitions'`, so the exemption never fires.  At the failing
input below, a definition containing a separator is rebased onto the
engine source tree instead of passing through. -/
theorem claim_c1_definitions_rebased :
    (interrogate I0 env0 "Linux" "Development" ["zlib"] []).result =
      .ok (detailsFromModules I0 [resolveModuleLibs I0 zlibModule]) ∧
    (detailsFromModules I0 [resolveModuleLibs I0 zlibModule]).definitions =
      ["/opt/UE/Engine/Source/ZLIB_PATH=third/party", "WITH_ZLIB=1"] ∧
    "ZLIB_PATH=third/party" ∉
      (detailsFromModules I0 [resolveModuleLibs I0 zlibModule]).definitions :=
  ⟨rfl, by decide, by decide⟩

/-- Claim C2, counterexample: on `"../a/../b"` the strip stage removes the
interior `../` occurrence as well — `_absolutePaths` uses
`p.replace('../', '')`, which removes every occurrence, not only the
leading marker the claim describes. -/
theorem claim_c2_counterexample :
    absolutePaths I0 ["../a/../b"] = ["/opt/UE/Engine/Source/a/b"] ∧
    absolutePaths I0 ["../a/../b"] ≠ ["/opt/UE/Engine/Source/a/../b"] := by
  constructor <;> decide

/-- Claim C2, amended: after backslash canonicalization, when the string
starts with `../`, every non-overlapping occurrence of `../` in it is
removed (not just the leading one); the result is then left unchanged
when absolute or a bare filename, and otherwise prefixed with the engine
root joined with the fixed `Engine/Source/` subdirectory
(`absolutePathAmended` spells out this amended wording stage by stage). -/
theorem claim_c2_amended (I : UE4BuildInterrogator) (paths : List String) :
    absolutePaths I paths = paths.map (absolutePathAmended I) := by
  rw [absolutePaths_eq_map]
  apply List.map_congr_left
  intro p _
  unfold absolutePathOne absolutePathAmended
  rw [stripLeadingTraversal_eq_spec]
  rfl

/-- Claim C2, amended, witness: concrete paths of every kind — traversal,
backslashes, bare filename, absolute. -/
theorem claim_c2_amended_witness :
    ["../ThirdParty/zlib/include", "x\\y", "z.lib", "/abs/q"].map
        (absolutePathAmended I0) =
      ["/opt/UE/Engine/Source/ThirdParty/zlib/include", "/opt/UE/Engine/Source/x/y",
        "z.lib", "/abs/q"] := by
  rw [← claim_c2_amended]
  decide

/-- Claim C3, counterexample: on a cache miss whose export read/parse
fails, the temp directory is created but its removal is never attempted —
the `shutil.rmtree` call on line 145 sits after `json.loads` on line 137
with no `finally`, so the exception propagates first. -/
theorem claim_c3_counterexample :
    (getThirdPartyLibs ⟨none, .parseFailure, true, false⟩ "Linux" "Development").tempDirCreated
        = true ∧
    (getThirdPartyLibs ⟨none, .parseFailure, true, false⟩ "Linux" "Development").removalAttempted
        = false ∧
    (getThirdPartyLibs ⟨none, .parseFailure, true, false⟩ "Linux" "Development").result
        = .error .parseError :=
  ⟨rfl, rfl, rfl⟩

/-- Claim C3, amended: on a cache miss the scoped temp directory is
removed only on the success path — after a successful read and parse the
removal is attempted and a failure of the removal itself is swallowed
(the returned modules and the cache update do not depend on whether
`rmtree` fails) — while on a read/parse failure the exception propagates
before the removal, which is never attempted. -/
theorem claim_c3_amended (pid cfg : String) (u : Bool) (mods : List Module)
    (rf : Bool) :
    ((getThirdPartyLibs ⟨none, .success mods, u, rf⟩ pid cfg).removalAttempted = true ∧
     (getThirdPartyLibs ⟨none, .success mods, u, rf⟩ pid cfg).tempDirRemoved = !rf ∧
     (getThirdPartyLibs ⟨none, .success mods, u, rf⟩ pid cfg).result =
       (getThirdPartyLibs ⟨none, .success mods, u, false⟩ pid cfg).result ∧
     (getThirdPartyLibs ⟨none, .success mods, u, rf⟩ pid cfg).env.cache =
       (getThirdPartyLibs ⟨none, .success mods, u, false⟩ pid cfg).env.cache) ∧
    ((getThirdPartyLibs ⟨none, .parseFailure, u, rf⟩ pid cfg).tempDirCreated = true ∧
     (getThirdPartyLibs ⟨none, .parseFailure, u, rf⟩ pid cfg).removalAttempted = false ∧
     (getThirdPartyLibs ⟨none, .parseFailure, u, rf⟩ pid cfg).result =
       .error .parseError) :=
  ⟨⟨rfl, rfl, rfl, rfl⟩, rfl, rfl, rfl⟩

/-- Claim C3, amended, witness: the amended statement at a concrete
environment whose `rmtree` fails. -/
theorem claim_c3_amended_witness :
    ((getThirdPartyLibs ⟨none, .success [zlibModule], true, true⟩ "Linux"
        "Development").removalAttempted = true ∧
     (getThirdPartyLibs ⟨none, .success [zlibModule], true, true⟩ "Linux"
        "Development").tempDirRemoved = !true ∧
     (getThirdPartyLibs ⟨none, .success [zlibModule], true, true⟩ "Linux"
        "Development").result =
       (getThirdPartyLibs ⟨none, .success [zlibModule], true, false⟩ "Linux"
        "Development").result ∧
     (getThirdPartyLibs ⟨none, .success [zlibModule], true, true⟩ "Linux"
        "Development").env.cache =
       (getThirdPartyLibs ⟨none, .success [zlibModule], true, false⟩ "Linux"
        "Development").env.cache) ∧
    ((getThirdPartyLibs ⟨none, .parseFailure, true, true⟩ "Linux"
        "Development").tempDirCreated = true ∧
     (getThirdPartyLibs ⟨none, .parseFailure, true, true⟩ "Linux"
        "Development").removalAttempted = false ∧
     (getThirdPartyLibs ⟨none, .parseFailure, true, true⟩ "Linux"
        "Development").result = .error .parseError) :=
  claim_c3_amended "Linux" "Development" true [zlibModule] true

/-- Claim C5: for a module with at least one additional library and at
least one library path, the resolution loop rewrites each library
reference by canonicalizing its separators and, exactly when the
canonicalized reference contains no `/`, joining it onto the first
absolutized library path; references containing a separator are left
untouched. -/
theorem claim_c5_bare_filename (I : UE4BuildInterrogator) (m : Module)
    (h1 : 0 < m.PublicAdditionalLibraries.length)
    (h2 : 0 < m.PublicLibraryPaths.length) :
    (resolveModuleLibs I m).PublicAdditionalLibraries =
      m.PublicAdditionalLibraries.map fun lib =>
        if containsSlash (slashify lib) then slashify lib
        else pjoin ((absolutePaths I m.PublicLibraryPaths).headD "") (slashify lib) := by
  rw [resolveModuleLibs_PAL_of_pos I m ⟨h1, h2⟩]
  unfold resolveLibs
  simp only [List.map_map]
  apply List.map_congr_left
  intro lib _
  by_cases hcs : containsSlash (slashify lib) = true
  · simp [Function.comp, joinBare, hcs]
  · simp [Function.comp, joinBare, hcs]

/-- Claim C5, witness: `PublicLibraryPaths = ["/eng/Lib"]` with
`PublicAdditionalLibraries = ["foo.lib", "sub/foo.lib"]` resolves the
bare `foo.lib` to `/eng/Lib/foo.lib` and leaves `sub/foo.lib` alone. -/
theorem claim_c5_bare_filename_witness :
    (resolveModuleLibs I0 zlibModule).PublicAdditionalLibraries =
      ["/eng/Lib/foo.lib", "sub/foo.lib"] := by
  rw [claim_c5_bare_filename I0 zlibModule (by decide) (by decide)]
  decide

/-- Claim C8: when every requested name has an override, no module
retrieval and no tool invocation happens, the environment (cache
included) is untouched, and the result is the empty details merged with
each requested name's override in caller order, each applied once. -/
theorem claim_c8_override_only (I : UE4BuildInterrogator) (env : Env)
    (pid cfg : String) (libraries : List String)
    (ov : List (String × ThirdPartyLibraryDetails))
    (hall : ∀ lib ∈ libraries, (lookupOverride ov lib).isSome = true) :
    (interrogate I env pid cfg libraries ov).retrievals = 0 ∧
    (interrogate I env pid cfg libraries ov).ubtCalls = [] ∧
    (interrogate I env pid cfg libraries ov).result =
      .ok ((libraries.map fun lib =>
        (lookupOverride ov lib).getD ThirdPartyLibraryDetails.empty).foldl
          ThirdPartyLibraryDetails.merge ThirdPartyLibraryDetails.empty) ∧
    (interrogate I env pid cfg libraries ov).env = env := by
  have hlm : libModulesOf ov libraries = [] := by
    unfold libModulesOf
    rw [List.filter_eq_nil_iff]
    intro lib hlib
    have h' := hall lib hlib
    intro hnone
    rw [Option.isNone_iff_eq_none] at hnone
    rw [hnone] at h'
    exact absurd h' (by simp)
  have hskip := interrogate_skip I env pid cfg libraries ov (by rw [hlm]; simp)
  have hova : overridesToApplyOf ov libraries =
      libraries.map fun lib =>
        (lookupOverride ov lib).getD ThirdPartyLibraryDetails.empty := by
    unfold overridesToApplyOf
    congr 1
    rw [List.filter_eq_self]
    exact hall
  rw [hskip, hova]
  exact ⟨rfl, rfl, rfl, rfl⟩

/-- Claim C8, witness: requesting only the overridden name `zlib`. -/
theorem claim_c8_override_only_witness :
    (interrogate I0 env0 "Linux" "Development" ["zlib"] [("zlib", ovD)]).retrievals = 0 ∧
    (interrogate I0 env0 "Linux" "Development" ["zlib"] [("zlib", ovD)]).ubtCalls = [] ∧
    (interrogate I0 env0 "Linux" "Development" ["zlib"] [("zlib", ovD)]).result =
      .ok ((["zlib"].map fun lib =>
        (lookupOverride [("zlib", ovD)] lib).getD ThirdPartyLibraryDetails.empty).foldl
          ThirdPartyLibraryDetails.merge ThirdPartyLibraryDetails.empty) ∧
    (interrogate I0 env0 "Linux" "Development" ["zlib"] [("zlib", ovD)]).env = env0 :=
  claim_c8_override_only I0 env0 "Linux" "Development" ["zlib"] [("zlib", ovD)]
    (by decide)

/-- Claim C10, counterexample: the claimed write-through does not happen.
The only cache write in the source (line 150) stores the pre-resolution
third-party list, and the cache collaborator — modelled from the spec as
a persistent, opaque key-value store — holds values, not aliases; so
after an interrogate call that resolved a bare filename, the cache (and
with it the environment) still holds the verbatim parsed record, even
though resolution changed the record the call flattened. -/
theorem claim_c10_counterexample :
    (interrogate I0 env0 "Linux" "Development" ["zlib"] []).env.cache =
      some [zlibModule] ∧
    (resolveModuleLibs I0 zlibModule).PublicAdditionalLibraries ≠
      zlibModule.PublicAdditionalLibraries := by
  constructor
  · rfl
  · decide

/-- Claim C10, amended: bare-filename resolution rewrites
`PublicAdditionalLibraries` only in the per-call module list that
flattening consumes.  The call leaves an existing cache entry unchanged
(on a hit the whole environment is untouched), and a cache miss stores
the pre-resolution third-party list; subsequent calls for the same
engine version therefore observe the verbatim parsed values and re-run
the resolution, not the already-resolved lists. -/
theorem claim_c10_amended (I : UE4BuildInterrogator) (pid cfg : String)
    (libraries : List String) (ov : List (String × ThirdPartyLibraryDetails))
    (env : Env) (M mods : List Module) (u rf : Bool) :
    (env.cache = some M → (interrogate I env pid cfg libraries ov).env = env) ∧
    (0 < (libModulesOf ov libraries).length →
      (interrogate I ⟨none, .success mods, u, rf⟩ pid cfg libraries ov).env.cache =
        some (mods.filter fun m => m.type' = "EngineThirdParty")) := by
  constructor
  · intro hc
    by_cases h : 0 < (libModulesOf ov libraries).length
    · rw [interrogate_hit I env pid cfg libraries ov M hc h]
    · rw [interrogate_skip I env pid cfg libraries ov h]
  · intro h
    unfold interrogate
    rw [if_pos h]
    rfl

/-- Claim C10, amended, witness: a hit leaves the environment untouched,
and a miss caches the verbatim (pre-resolution) zlib record. -/
theorem claim_c10_amended_witness :
    (interrogate I0 env0 "Linux" "Development" ["zlib"] []).env = env0 ∧
    (interrogate I0 ⟨none, .success [zlibModule], true, false⟩ "Linux" "Development"
      ["zlib"] []).env.cache = some [zlibModule] := by
  have h := claim_c10_amended I0 "Linux" "Development" ["zlib"] [] env0
    [zlibModule] [zlibModule] true false
  refine ⟨h.1 rfl, ?_⟩
  rw [h.2 (by decide)]
  decide

/-- Claim C6: for every interrogate call with at least one selected
module (and override bundles, when supplied, that themselves satisfy the
result-shape prefix invariant — vacuous when no overrides are given), the
result's `prefixDirs` is duplicate-free and contains every selected
module's absolutized `Directory`, every `includeDirs` entry, every
`linkDirs` entry, and the parent directory of each such entry. -/
theorem claim_c6_prefix_invariant (I : UE4BuildInterrogator) (env : Env)
    (pid cfg : String) (libraries : List String)
    (ov : List (String × ThirdPartyLibraryDetails)) (M : List Module)
    (d : ThirdPartyLibraryDetails)
    (hc : env.cache = some M)
    (hov : ∀ kv ∈ ov, PrefixClosed kv.2)
    (hres : (interrogate I env pid cfg libraries ov).result = .ok d)
    (hsel : selectedModules (libModulesOf ov libraries) M ≠ []) :
    d.prefixDirs.Nodup ∧
    (∀ m ∈ selectedModules (libModulesOf ov libraries) M,
      absolutePathOne I m.Directory ∈ d.prefixDirs) ∧
    PrefixClosed d := by
  have hlm : 0 < (libModulesOf ov libraries).length := by
    by_contra hno
    have hnil : libModulesOf ov libraries = [] := by
      cases hl : libModulesOf ov libraries with
      | nil => rfl
      | cons a t => exact absurd (by rw [hl]; simp) hno
    refine hsel ?_
    unfold selectedModules
    rw [hnil]
    apply List.filter_eq_nil_iff.mpr
    intro m _
    simp
  rw [interrogate_hit I env pid cfg libraries ov M hc hlm] at hres
  obtain rfl := (Except.ok.inj hres).symm
  refine ⟨?_, ?_, ?_⟩
  · apply foldl_merge_nodup
    rw [detailsFromModules_prefixDirs]
    exact List.nodup_dedup _
  · intro m hm
    apply foldl_merge_prefixDirs_mono
    rw [detailsFromModules_prefixDirs, List.mem_dedup]
    refine List.mem_append_left _ (List.mem_append_left _ (List.mem_append_left _ ?_))
    rw [flattenField_Directory, catLists_map,
      catLists_congr _ _ _ fun m' _ => by rw [resolveModuleLibs_Directory]]
    refine List.mem_map_of_mem _ ?_
    rw [mem_catLists]
    exact ⟨m, hm, by simp⟩
  · apply foldl_merge_closed
    · exact detailsFromModules_closed I _
    · exact overridesToApply_closed ov libraries hov

/-- Claim C6, witness. -/
theorem claim_c6_prefix_invariant_witness :
    (detailsFromModules I0 [resolveModuleLibs I0 zlibModule]).prefixDirs.Nodup ∧
    absolutePathOne I0 zlibModule.Directory ∈
      (detailsFromModules I0 [resolveModuleLibs I0 zlibModule]).prefixDirs := by
  have h := claim_c6_prefix_invariant I0 env0 "Linux" "Development" ["zlib"] []
    [zlibModule] (detailsFromModules I0 [resolveModuleLibs I0 zlibModule]) rfl
    (by simp) rfl (by decide)
  exact ⟨h.1, h.2.1 zlibModule (by decide)⟩

/-- Claim C7: with no overrides, restricting the requested names to a
subset of the module names yields `includeDirs` and `linkDirs` that are
subsets (by path) of those produced by requesting every module name. -/
theorem claim_c7_filter_monotone (I : UE4BuildInterrogator) (env : Env)
    (pid cfg : String) (M : List Module) (R : List String)
    (hc : env.cache = some M)
    (hsub : ∀ r ∈ R, r ∈ M.map fun m => m.Name)
    (d1 d2 : ThirdPartyLibraryDetails)
    (h1 : (interrogate I env pid cfg R []).result = .ok d1)
    (h2 : (interrogate I env pid cfg (M.map fun m => m.Name) []).result = .ok d2) :
    (∀ p ∈ d1.includeDirs, p ∈ d2.includeDirs) ∧
    (∀ p ∈ d1.linkDirs, p ∈ d2.linkDirs) := by
  by_cases hR : 0 < R.length
  · have hMne : 0 < ((M.map fun m => m.Name) : List String).length := by
      cases R with
      | nil => exact absurd hR (by simp)
      | cons r t =>
        have hr := hsub r (List.mem_cons_self _ _)
        exact List.length_pos.mpr fun hnil => by rw [hnil] at hr; cases hr
    rw [interrogate_hit I env pid cfg R [] M hc (by rwa [libModulesOf_nil])] at h1
    rw [interrogate_hit I env pid cfg (M.map fun m => m.Name) [] M hc
      (by rwa [libModulesOf_nil])] at h2
    obtain rfl := (Except.ok.inj h1).symm
    obtain rfl := (Except.ok.inj h2).symm
    simp only [overridesToApplyOf_nil, List.foldl_nil]
    have hfull : selectedModules (libModulesOf [] (M.map fun m => m.Name)) M = M := by
      rw [libModulesOf_nil]
      unfold selectedModules
      rw [List.filter_eq_self]
      intro m hm
      rw [contains_iff_mem]
      exact List.mem_map_of_mem _ hm
    rw [hfull]
    have hsome : selectedModules (libModulesOf [] R) M =
        M.filter fun m => R.contains m.Name := by
      rw [libModulesOf_nil]
      rfl
    rw [hsome]
    constructor
    · intro p hp
      rw [detailsFromModules_includeDirs] at hp ⊢
      rw [List.mem_append, List.mem_append] at hp ⊢
      rcases hp with (hp | hp) | hp
      · exact Or.inl (Or.inl (by
          rw [flattenField_PublicSystemIncludePaths] at hp ⊢
          exact mem_flatten_filter_mono I _
            (resolveModuleLibs_PublicSystemIncludePaths I) _ M p hp))
      · exact Or.inl (Or.inr (by
          rw [flattenField_PublicIncludePaths] at hp ⊢
          exact mem_flatten_filter_mono I _
            (resolveModuleLibs_PublicIncludePaths I) _ M p hp))
      · exact Or.inr (by
          rw [flattenField_PrivateIncludePaths] at hp ⊢
          exact mem_flatten_filter_mono I _
            (resolveModuleLibs_PrivateIncludePaths I) _ M p hp)
    · intro p hp
      rw [detailsFromModules_linkDirs] at hp ⊢
      rw [flattenField_PublicLibraryPaths] at hp ⊢
      exact mem_flatten_filter_mono I _
        (resolveModuleLibs_PublicLibraryPaths I) _ M p hp
  · have hRnil : R = [] := by
      cases hl : R with
      | nil => rfl
      | cons a t => exact absurd (by rw [hl]; simp) hR
    subst hRnil
    rw [interrogate_skip I env pid cfg [] [] (by simp [libModulesOf_nil])] at h1
    obtain rfl := (Except.ok.inj h1).symm
    rw [overridesToApplyOf_nil]
    exact ⟨fun p hp => absurd hp (by simp [ThirdPartyLibraryDetails.empty]),
      fun p hp => absurd hp (by simp [ThirdPartyLibraryDetails.empty])⟩

set_option maxHeartbeats 1000000 in
/-- Claim C7, witness: requesting `["zlib"]` against a two-module set. -/
theorem claim_c7_filter_monotone_witness :
    "/opt/UE/Engine/Source/ThirdParty/zlib/include" ∈
      ((overridesToApplyOf [] (["zlib"] : List String)).foldl
        ThirdPartyLibraryDetails.merge
        (detailsFromModules I0 ((selectedModules (libModulesOf [] ["zlib"])
          [zlibModule, pngModule]).map (resolveModuleLibs I0)))).includeDirs ∧
    "/opt/UE/Engine/Source/ThirdParty/zlib/include" ∈
      ((overridesToApplyOf [] ([zlibModule, pngModule].map fun m => m.Name)).foldl
        ThirdPartyLibraryDetails.merge
        (detailsFromModules I0 ((selectedModules (libModulesOf []
          ([zlibModule, pngModule].map fun m => m.Name))
          [zlibModule, pngModule]).map (resolveModuleLibs I0)))).includeDirs := by
  have h := claim_c7_filter_monotone I0
    ⟨some [zlibModule, pngModule], .success [], true, false⟩ "Linux" "Development"
    [zlibModule, pngModule] ["zlib"] rfl (by decide) _ _ rfl rfl
  exact ⟨by decide, h.1 _ (by decide)⟩

/-- Claim C9: with a non-empty module-requiring set and at least one
requested name matching no module, exactly one warning listing the
unmatched names (quoted, comma-joined) is emitted, the call still
succeeds, and the result is derived from the matched modules alone (an
empty match set gives the empty module-derived details, not an error). -/
theorem claim_c9_unsupported_warning (I : UE4BuildInterrogator) (env : Env)
    (pid cfg : String) (libraries : List String)
    (ov : List (String × ThirdPartyLibraryDetails)) (M : List Module)
    (hc : env.cache = some M)
    (h : 0 < (libModulesOf ov libraries).length)
    (hun : unsupportedOf (libModulesOf ov libraries)
      (selectedModules (libModulesOf ov libraries) M) ≠ []) :
    (interrogate I env pid cfg libraries ov).warnings =
      ["Warning: unsupported libraries " ++ String.intercalate ","
        (unsupportedOf (libModulesOf ov libraries)
          (selectedModules (libModulesOf ov libraries) M))] ∧
    (interrogate I env pid cfg libraries ov).result =
      .ok ((overridesToApplyOf ov libraries).foldl ThirdPartyLibraryDetails.merge
        (detailsFromModules I
          ((selectedModules (libModulesOf ov libraries) M).map
            (resolveModuleLibs I)))) ∧
    detailsFromModules I [] = ThirdPartyLibraryDetails.empty := by
  rw [interrogate_hit I env pid cfg libraries ov M hc h]
  refine ⟨?_, rfl, rfl⟩
  show warningsOf _ = _
  unfold warningsOf
  rw [if_pos (List.length_pos.mpr hun)]

/-- Claim C9, witness: requesting `{"zlib", "bogus"}` against a module set
containing only zlib. -/
theorem claim_c9_unsupported_warning_witness :
    (interrogate I0 env0 "Linux" "Development" ["zlib", "bogus"] []).warnings =
      ["Warning: unsupported libraries \"bogus\""] ∧
    (interrogate I0 env0 "Linux" "Development" ["zlib", "bogus"] []).result =
      .ok (detailsFromModules I0 [resolveModuleLibs I0 zlibModule]) := by
  have h := claim_c9_unsupported_warning I0 env0 "Linux" "Development"
    ["zlib", "bogus"] [] [zlibModule] rfl (by decide) (by decide)
  refine ⟨?_, ?_⟩
  · rw [h.1]
    decide
  · rw [h.2.1]
    rfl

/-- Claim C4: calling `interrogate` twice with identical arguments, the
second call running on the environment the first call left behind (the
cache it mutated in place), yields results whose five fields are equal as
sets. -/
theorem claim_c4_idempotent (I : UE4BuildInterrogator) (env : Env)
    (pid cfg : String) (libraries : List String)
    (ov : List (String × ThirdPartyLibraryDetails)) (M : List Module)
    (hc : env.cache = some M) (d1 d2 : ThirdPartyLibraryDetails)
    (h1 : (interrogate I env pid cfg libraries ov).result = .ok d1)
    (h2 : (interrogate I (interrogate I env pid cfg libraries ov).env pid cfg
      libraries ov).result = .ok d2) :
    (∀ x, x ∈ d1.prefixDirs ↔ x ∈ d2.prefixDirs) ∧
    (∀ x, x ∈ d1.includeDirs ↔ x ∈ d2.includeDirs) ∧
    (∀ x, x ∈ d1.linkDirs ↔ x ∈ d2.linkDirs) ∧
    (∀ x, x ∈ d1.definitions ↔ x ∈ d2.definitions) ∧
    (∀ x, x ∈ d1.libs ↔ x ∈ d2.libs) := by
  suffices hdd : d1 = d2 by
    subst hdd
    exact ⟨fun x => Iff.rfl, fun x => Iff.rfl, fun x => Iff.rfl, fun x => Iff.rfl,
      fun x => Iff.rfl⟩
  by_cases h : 0 < (libModulesOf ov libraries).length
  · have e1 := interrogate_hit I env pid cfg libraries ov M hc h
    have henv : (interrogate I env pid cfg libraries ov).env = env := by rw [e1]
    rw [henv, e1] at h2
    rw [e1] at h1
    have hx1 := Except.ok.inj h1
    have hx2 := Except.ok.inj h2
    rw [← hx1, ← hx2]
  · have e1 := interrogate_skip I env pid cfg libraries ov h
    have henv : (interrogate I env pid cfg libraries ov).env = env := by rw [e1]
    rw [henv, e1] at h2
    rw [e1] at h1
    have hx1 := Except.ok.inj h1
    have hx2 := Except.ok.inj h2
    rw [← hx1, ← hx2]

/-- Claim C4, witness: a second interrogation of `zlib` on the state the
first call left behind produces the same libs set. -/
theorem claim_c4_idempotent_witness :
    ("/eng/Lib/foo.lib" ∈ (detailsFromModules I0
        [resolveModuleLibs I0 zlibModule]).libs ↔
      "/eng/Lib/foo.lib" ∈ (detailsFromModules I0
        [resolveModuleLibs I0 zlibModule]).libs) ∧
    "/eng/Lib/foo.lib" ∈ (detailsFromModules I0
      [resolveModuleLibs I0 zlibModule]).libs := by
  have h := claim_c4_idempotent I0 env0 "Linux" "Development" ["zlib"] []
    [zlibModule] rfl
    (detailsFromModules I0 [resolveModuleLibs I0 zlibModule])
    (detailsFromModules I0 [resolveModuleLibs I0 zlibModule])
    rfl rfl
  exact ⟨h.2.2.2.2 "/eng/Lib/foo.lib", by decide⟩

example : slashify "a\\b" = "a/b" := by decide
example : stripLeadingTraversal "../a/../b" = "a/b" := by decide
example : stripLeadingTraversal "a/../b" = "a/../b" := by decide
example : pjoin "/eng/Lib" "foo.lib" = "/eng/Lib/foo.lib" := by decide
example : pjoin "" "foo.lib" = "foo.lib" := by decide
example : dirname "/opt/UE/Engine/zlib/include" = "/opt/UE/Engine/zlib" := by decide
example : dirname "x" = "" := by decide
example : dirname "/x" = "/" := by decide

end UE4Cli
